import Mathlib

/-!
Shallow embedding of `src/Chef/pychef/src/ConcolicSession.cc` (chef
pychef concolic-marking core): the identifier codec (`DecodeArrayName`,
`MakeConcolicBuffer`), the size-constraint policy (`CheckObjectSize`,
`ConstrainObjectSize`) and the per-kind marking operations
(`MakeConcolicInt`, `MakeConcolicSequence`, `MakeConcolicString`,
`MakeConcolicUnicode`, `MakeConcolicList`, `MakeConcolicDict`,
`MakeConcolicTuple`).

C++ `std::string` / `char*` values are embedded as `List Char`;
machine integers (`long`, `int`, `Py_ssize_t`) as `Int` (none of the
modelled code relies on wrap-around); byte buffers as `List Nat`.
Engine interaction (`s2e_make_concolic`, `s2e_assume`) is recorded as
an explicit event trace, and Python exception raising
(`PyErr_SetString`, `PyErr_NoMemory`) as `Except` errors.
-/

namespace ChefConcolic

/-- The five kind tags of the naming protocol (format characters of
`MakeConcolicBuffer`: `i`, `l`, `s`, `u`, `b`). -/
inductive KindTag where
  | integer
  | platformSize
  | byteString
  | unicodeString
  | byteArray
deriving DecidableEq, Repr

/-- The ASCII code character of a kind tag. -/
def KindTag.code : KindTag → Char
  | .integer => 'i'
  | .platformSize => 'l'
  | .byteString => 's'
  | .unicodeString => 'u'
  | .byteArray => 'b'

/-- Outcomes of `DecodeArrayName` that abort instead of returning:
`outOfRange` models the `std::out_of_range` exception thrown by
`assgn_value.at(1)` when the remainder after the last dot has fewer
than two characters, and `invariantViolation` models the failure of
`assert(assgn_value.size() > 2 && "Invalid value encoding")`. -/
inductive DecodeErr where
  | outOfRange
  | invariantViolation
deriving DecidableEq, Repr

/-- `s.rfind('.')` followed by the two `substr` calls of
`DecodeArrayName`: split a character list at its LAST `'.'`,
returning the parts before and after it, or `none` when the list has
no `'.'` at all. -/
def splitLastDot : List Char → Option (List Char × List Char)
  | [] => none
  | c :: cs =>
    match splitLastDot cs with
    | some (k, v) => some (c :: k, v)
    | none => if c = '.' then some ([], cs) else none

/-- `DecodeArrayName` (ConcolicSession.cc lines 36-54).  The caller
(`DecodeAssignment`) initialises `assgn_value` to the empty string and
`assgn_type` to `'b'`, so the no-dot branch yields those defaults.
With a dot, the remainder after the last dot is inspected:
`assgn_value.at(1)` throws `std::out_of_range` when the remainder is
shorter than two characters; when its second character is `'#'` the
first character becomes the tag and `assert(size > 2)` requires a
non-empty qualifier after the two-character prefix; otherwise the
whole remainder is the qualifier and the tag defaults to `'b'`. -/
def DecodeArrayName (name : List Char) :
    Except DecodeErr (List Char × List Char × Char) :=
  match splitLastDot name with
  | none => .ok (name, [], 'b')
  | some (key, rest) =>
    match rest with
    | [] => .error .outOfRange
    | [_] => .error .outOfRange
    | c0 :: c1 :: rest2 =>
      if c1 = '#' then
        if rest2 = [] then .error .invariantViolation
        else .ok (key, rest2, c0)
      else .ok (key, c0 :: c1 :: rest2, 'b')

/-- `MakeConcolicBuffer` formats the identifier into a fixed
`char obj_name[256]` via `snprintf(obj_name, 256, ...)`, so at most
255 characters of the formatted name survive. -/
def engineNameLimit : Nat := 255

/-- The identifier built by `MakeConcolicBuffer`
(ConcolicSession.cc lines 211-217): `snprintf "%s.%c#%s"` of the base
name, the type character and the qualifier, truncated to the 255
characters that fit the 256-byte scratch buffer. -/
def encodeName (base : List Char) (type : Char) (qual : List Char) :
    List Char :=
  (base ++ '.' :: type :: '#' :: qual).take engineNameLimit

/-! Helper lemmas about `splitLastDot`. -/

lemma splitLastDot_eq_none (l : List Char) (h : '.' ∉ l) :
    splitLastDot l = none := by
  induction l with
  | nil => rfl
  | cons c cs ih =>
    have hc : ¬ c = '.' := fun hc => h (hc ▸ List.mem_cons_self c cs)
    have hcs : '.' ∉ cs := fun hm => h (List.mem_cons_of_mem c hm)
    simp [splitLastDot, ih hcs, hc]

lemma splitLastDot_append (key rest : List Char) (h : '.' ∉ rest) :
    splitLastDot (key ++ '.' :: rest) = some (key, rest) := by
  induction key with
  | nil => simp [splitLastDot, splitLastDot_eq_none rest h]
  | cons c cs ih => simp [splitLastDot, ih]

/-- Claim C1 (counterexample): with an empty qualifier the round trip
fails — `encode("a", "", Integer)` yields `"a.i#"`, which
`DecodeArrayName` rejects with the `assert(size > 2)` failure
(InvariantViolation) instead of returning `("a", "", Integer)`. -/
theorem roundtrip_cex :
    DecodeArrayName (encodeName ['a'] KindTag.integer.code []) =
        .error .invariantViolation ∧
      DecodeArrayName (encodeName ['a'] KindTag.integer.code []) ≠
        .ok (['a'], [], KindTag.integer.code) :=
  ⟨rfl, fun h => Except.noConfusion h⟩

/-- Claim C1 (amended): for every base, every NON-EMPTY qualifier
containing no `'.'`, and every kind tag, provided the encoded
identifier fits the engine's 255-character limit,
`DecodeArrayName (encodeName base tag qual)` returns exactly
`(base, qual, tag)`. -/
theorem roundtrip_amended (t : KindTag) (base qual : List Char)
    (hq : qual ≠ []) (hqd : '.' ∉ qual)
    (hlen : (base ++ '.' :: t.code :: '#' :: qual).length ≤ engineNameLimit) :
    DecodeArrayName (encodeName base t.code qual) =
      .ok (base, qual, t.code) := by
  have hcode : t.code ≠ '.' := by cases t <;> decide
  have hrest : '.' ∉ t.code :: '#' :: qual := by
    intro hm
    rcases List.mem_cons.mp hm with h1 | hm
    · exact hcode h1.symm
    · rcases List.mem_cons.mp hm with h2 | hm
      · exact absurd h2.symm (by decide)
      · exact hqd hm
  unfold encodeName
  rw [List.take_of_length_le hlen]
  unfold DecodeArrayName
  rw [splitLastDot_append base (t.code :: '#' :: qual) hrest]
  simp [hq]

/-- Claim C1 (witness for the amended round trip at
base `"a"`, qualifier `"q"`, tag Integer). -/
theorem roundtrip_amended_witness :
    DecodeArrayName (encodeName ['a'] KindTag.integer.code ['q']) =
      .ok (['a'], ['q'], KindTag.integer.code) :=
  roundtrip_amended KindTag.integer ['a'] ['q'] (by decide) (by decide)
    (by decide)

/-- Claim C6 (counterexample): for the identifier `"a.x"`, whose
remainder after the last dot has length one, `DecodeArrayName` does
not return `("a", "x", ByteArray)` — `assgn_value.at(1)` throws
`std::out_of_range` on the one-character remainder. -/
theorem decode_default_tag_cex :
    DecodeArrayName ['a', '.', 'x'] = .error .outOfRange ∧
      DecodeArrayName ['a', '.', 'x'] ≠ .ok (['a'], ['x'], 'b') :=
  ⟨rfl, fun h => Except.noConfusion h⟩

/-- Claim C6 (amended): for every identifier with at least one `'.'`
whose remainder after the last dot has length AT LEAST TWO and does
not have `'#'` as its second character, decode returns the part
before the last dot as key, the whole remainder as qualifier and the
default tag `'b'` (ByteArray).  Remainders of length zero or one
instead make `assgn_value.at(1)` throw. -/
theorem decode_default_tag_amended (key : List Char) (c0 c1 : Char)
    (rest : List Char) (h : '.' ∉ c0 :: c1 :: rest) (hh : c1 ≠ '#') :
    DecodeArrayName (key ++ '.' :: c0 :: c1 :: rest) =
      .ok (key, c0 :: c1 :: rest, 'b') := by
  unfold DecodeArrayName
  rw [splitLastDot_append key (c0 :: c1 :: rest) h]
  simp [hh]

/-- Claim C6 (witness for the amended statement at `"a.xyz"`). -/
theorem decode_default_tag_amended_witness :
    DecodeArrayName (['a'] ++ '.' :: 'x' :: 'y' :: ['z']) =
      .ok (['a'], 'x' :: 'y' :: ['z'], 'b') :=
  decode_default_tag_amended ['a'] 'x' 'y' ['z'] (by decide) (by decide)

/-- Claim C10: every identifier of the form `<key>.<tagChar>#` — a
two-character remainder `tagChar#` after the last dot, hence an empty
qualifier after stripping the tag prefix — fails the
`assert(assgn_value.size() > 2)` check, i.e. raises
InvariantViolation instead of returning a decoded triple.  (The tag
character is not `'.'`, otherwise the remainder after the last dot
would not contain the tag prefix at all.) -/
theorem decode_empty_qualifier_asserts (key : List Char) (c : Char)
    (hc : c ≠ '.') :
    DecodeArrayName (key ++ ['.', c, '#']) = .error .invariantViolation := by
  have hrest : '.' ∉ [c, '#'] := by
    intro hm
    rcases List.mem_cons.mp hm with h1 | hm
    · exact hc h1.symm
    · rcases List.mem_cons.mp hm with h2 | hm
      · exact absurd h2.symm (by decide)
      · exact List.not_mem_nil _ hm
  unfold DecodeArrayName
  rw [show key ++ ['.', c, '#'] = key ++ '.' :: [c, '#'] from rfl]
  rw [splitLastDot_append key [c, '#'] hrest]
  simp

/-- Claim C10 (witness at `"a.i#"`). -/
theorem decode_empty_qualifier_asserts_witness :
    DecodeArrayName (['a'] ++ ['.', 'i', '#']) = .error .invariantViolation :=
  decode_empty_qualifier_asserts ['a'] 'i' (by decide)

/-! ## The marking operations

The `ConcolicSession` methods.  Engine interaction is recorded as a
trace of events, in the order the C++ issues the calls. -/

/-- One engine call: `s2e_make_concolic(buf, size, obj_name)` (recorded
with the identifier string and the byte size of the registered buffer)
or one `s2e_assume` with a comparison predicate. -/
inductive Event where
  | mkConcolic (ident : List Char) (size : Nat)
  | assumeGe (lhs rhs : Int)
  | assumeLe (lhs rhs : Int)
  | assumeLt (lhs rhs : Int)
deriving DecidableEq, Repr

/-- The Python exception classes the modelled code raises:
`PyExc_RuntimeError`, `PyExc_ValueError`, `PyExc_TypeError`, and
`PyExc_MemoryError` (set by `PyErr_NoMemory` and by failing object
constructors). -/
inductive PyExc where
  | runtimeError
  | valueError
  | typeError
  | memoryError
deriving DecidableEq, Repr

/-- A raised Python exception: class plus the `PyErr_SetString`
message (empty for `PyErr_NoMemory` / failed constructors). -/
inductive PyErr where
  | fail (exc : PyExc) (msg : String)
deriving DecidableEq, Repr

/-- The runtime kinds `MakeConcolicSequence` dispatches on.  Only the
data the modelled code reads is kept: string content bytes, unicode
code units, and the element counts of lists, dicts and tuples. -/
inductive PyVal where
  | pyNone
  | pyInt (v : Int)
  | pyStr (bytes : List Nat)
  | pyUnicode (units : List Nat)
  | pyList (len : Nat)
  | pyDict (used : Nat)
  | pyTuple (len : Nat)
  | pyOther
deriving DecidableEq, Repr

/-- A Python object reference: an identity (`id`, standing for the
object's address) and its value.  Two references alias exactly when
their `id`s coincide. -/
structure Obj where
  id : Nat
  val : PyVal
deriving DecidableEq, Repr

/-- `sizeof(long)` on the LP64 reference platform. -/
def sizeofLong : Nat := 8

/-- `sizeof(Py_ssize_t)` on the LP64 reference platform. -/
def sizeofSsize : Nat := 8

/-- `sizeof(Py_UNICODE)` (UCS4 build); no claim depends on the
actual width. -/
def sizeofPyUnicode : Nat := 4

/-- The `s2e_make_concolic` event issued by `MakeConcolicBuffer`
(lines 211-217): register `size` bytes under the identifier
`encodeName base type field`. -/
def MakeConcolicBuffer (size : Nat) (base field : List Char)
    (type : Char) : Event :=
  .mkConcolic (encodeName base type field) size

/-- `CheckObjectSize` (lines 219-230): returns `0` for acceptance and
`-1` for rejection.  (`assert(min_size >= 0)` guards the entry; the
claims carry that precondition.) -/
def CheckObjectSize (size max_size min_size : Int) : Int :=
  if max_size < 0 then 0
  else if max_size = 0 then (if size ≥ min_size then 0 else -1)
  else if size ≥ min_size ∧ size ≤ max_size then 0 else -1

/-- `ConstrainObjectSize` (lines 232-240): when `max_size > 0` first
`s2e_assume(size <= max_size)`, then unconditionally
`s2e_assume(size >= min_size)` — in that source order. -/
def ConstrainObjectSize (size max_size min_size : Int) : List Event :=
  (if max_size > 0 then [Event.assumeLe size max_size] else []) ++
    [Event.assumeGe size min_size]

/-- `MakeConcolicInt` (lines 141-165): engine-active check, range
validation when `max_value >= min_value`, buffer registration under
`<name>.i#value`, then the two range assumptions (`>= min` before
`<= max`).  Returns the integer value (`PyInt_FromLong(value)`). -/
def MakeConcolicInt (s2eActive : Bool) (value : Int) (base : List Char)
    (max_value min_value : Int) : List Event × Except PyErr Int :=
  if s2eActive = false then
    ([], .error (.fail .runtimeError "Not in symbolic mode"))
  else if max_value ≥ min_value ∧ (value < min_value ∨ value > max_value) then
    ([], .error (.fail .valueError "Incompatible value constraints"))
  else
    (MakeConcolicBuffer sizeofLong base "value".toList 'i' ::
        (if max_value ≥ min_value then
          [Event.assumeGe value min_value, Event.assumeLe value max_value]
        else []),
      .ok value)

/-- `MakeConcolicString` (lines 243-276).  `tid` is the identity of
the `PyStringObject*` target, `bytes` its content, `fresh` the
identity a newly constructed object would receive (distinct from
every live object's), `mallocOk` whether `PyMem_Malloc` succeeds and
`newOk` whether `PyString_FromStringAndSize` succeeds.  On success
the returned object is the freshly constructed string. -/
def MakeConcolicString (tid : Nat) (bytes : List Nat) (base : List Char)
    (max_size min_size : Int) (fresh : Nat) (mallocOk newOk : Bool) :
    List Event × Except PyErr Obj :=
  if CheckObjectSize (bytes.length : Int) max_size min_size < 0 then
    ([], .error (.fail .valueError "Incompatible size constraints"))
  else if mallocOk = false then
    ([], .error (.fail .memoryError ""))
  else
    let ev1 := MakeConcolicBuffer bytes.length base "value".toList 's'
    if newOk = false then
      ([ev1], .error (.fail .memoryError ""))
    else if max_size ≥ 0 then
      ([ev1, MakeConcolicBuffer sizeofSsize base "size".toList 'l'] ++
          ConstrainObjectSize (bytes.length : Int) max_size min_size,
        .ok ⟨fresh, .pyStr bytes⟩)
    else
      ([ev1], .ok ⟨fresh, .pyStr bytes⟩)

/-- `MakeConcolicUnicode` (lines 279-314): as for strings, with the
value buffer of `length * sizeof(Py_UNICODE)` bytes and the length
field constrained. -/
def MakeConcolicUnicode (tid : Nat) (units : List Nat) (base : List Char)
    (max_size min_size : Int) (fresh : Nat) (mallocOk newOk : Bool) :
    List Event × Except PyErr Obj :=
  if CheckObjectSize (units.length : Int) max_size min_size < 0 then
    ([], .error (.fail .valueError "Incompatible size constraints"))
  else if mallocOk = false then
    ([], .error (.fail .memoryError ""))
  else
    let ev1 := MakeConcolicBuffer (units.length * sizeofPyUnicode) base
        "value".toList 'u'
    if newOk = false then
      ([ev1], .error (.fail .memoryError ""))
    else if max_size ≥ 0 then
      ([ev1, MakeConcolicBuffer sizeofSsize base "size".toList 'l'] ++
          ConstrainObjectSize (units.length : Int) max_size min_size,
        .ok ⟨fresh, .pyUnicode units⟩)
    else
      ([ev1], .ok ⟨fresh, .pyUnicode units⟩)

/-- `MakeConcolicList` (lines 317-335): size validation, then if
`max_size >= 0` the length field is registered and constrained; the
TARGET itself is returned after `Py_INCREF` — same identity. -/
def MakeConcolicList (tid : Nat) (len : Nat) (base : List Char)
    (max_size min_size : Int) : List Event × Except PyErr Obj :=
  if CheckObjectSize (len : Int) max_size min_size < 0 then
    ([], .error (.fail .valueError "Incompatible size constraints"))
  else if max_size ≥ 0 then
    (MakeConcolicBuffer sizeofSsize base "size".toList 'l' ::
        ConstrainObjectSize (len : Int) max_size min_size,
      .ok ⟨tid, .pyList len⟩)
  else
    ([], .ok ⟨tid, .pyList len⟩)

/-- `MakeConcolicDict` (lines 338-350): unconditionally register
`ma_used` under `<name>.l#size`, `s2e_assume(ma_used >= 0)`, then
`s2e_assume(ma_used < max_symbolic_size_)`; return the target
(`Py_INCREF`) — same identity.  `maxSym` is the session's
`max_symbolic_size_` field. -/
def MakeConcolicDict (tid : Nat) (used : Nat) (base : List Char)
    (maxSym : Int) : List Event × Except PyErr Obj :=
  ([MakeConcolicBuffer sizeofSsize base "size".toList 'l',
      Event.assumeGe (used : Int) 0, Event.assumeLt (used : Int) maxSym],
    .ok ⟨tid, .pyDict used⟩)

/-- `MakeConcolicTuple` (lines 353-365): same shape as
`MakeConcolicDict`, on the tuple's `ob_size`. -/
def MakeConcolicTuple (tid : Nat) (len : Nat) (base : List Char)
    (maxSym : Int) : List Event × Except PyErr Obj :=
  ([MakeConcolicBuffer sizeofSsize base "size".toList 'l',
      Event.assumeGe (len : Int) 0, Event.assumeLt (len : Int) maxSym],
    .ok ⟨tid, .pyTuple len⟩)

/-- `MakeConcolicSequence` (lines 168-197): engine-active check,
`min_size >= 0` check, then dispatch on the runtime kind.  `Py_None`
raises `PyExc_ValueError`; kinds outside the dispatch set raise
`PyExc_TypeError`. -/
def MakeConcolicSequence (s2eActive : Bool) (target : Obj)
    (base : List Char) (max_size min_size : Int) (fresh : Nat)
    (mallocOk newOk : Bool) (maxSym : Int) :
    List Event × Except PyErr Obj :=
  if s2eActive = false then
    ([], .error (.fail .runtimeError "Not in symbolic mode"))
  else if min_size < 0 then
    ([], .error (.fail .valueError "Minimum size cannot be negative"))
  else
    match target.val with
    | .pyNone => ([], .error (.fail .valueError "Cannot make symbolic None"))
    | .pyStr bytes =>
        MakeConcolicString target.id bytes base max_size min_size fresh
          mallocOk newOk
    | .pyUnicode units =>
        MakeConcolicUnicode target.id units base max_size min_size fresh
          mallocOk newOk
    | .pyList len => MakeConcolicList target.id len base max_size min_size
    | .pyDict used => MakeConcolicDict target.id used base maxSym
    | .pyTuple len => MakeConcolicTuple target.id len base maxSym
    | .pyInt _ => ([], .error (.fail .typeError "Unsupported type"))
    | .pyOther => ([], .error (.fail .typeError "Unsupported type"))

/-- Claim C4: with `min_size ≥ 0`, `CheckObjectSize` accepts every
size when `max_size < 0`; accepts exactly the sizes `≥ min_size` when
`max_size = 0`; and accepts exactly the sizes in
`[min_size, max_size]` when `max_size > 0`. -/
theorem checkObjectSize_spec (size max_size min_size : Int)
    (hmin : min_size ≥ 0) :
    (max_size < 0 → CheckObjectSize size max_size min_size = 0) ∧
      (max_size = 0 →
        (CheckObjectSize size max_size min_size = 0 ↔ size ≥ min_size)) ∧
      (max_size > 0 →
        (CheckObjectSize size max_size min_size = 0 ↔
          min_size ≤ size ∧ size ≤ max_size)) := by
  unfold CheckObjectSize
  refine ⟨fun h1 => ?_, fun h1 => ?_, fun h1 => ?_⟩ <;>
    split_ifs <;> simp_all <;> omega

/-- Claim C4 (witness): a fixed-size object (`max_size = -1`) is
always accepted. -/
theorem checkObjectSize_spec_witness : CheckObjectSize 5 (-1) 0 = 0 :=
  (checkObjectSize_spec 5 (-1) 0 (by decide)).1 (by decide)

/-- Claim C5: with the engine active, `MakeConcolicInt` fails with
ValueError (ConstraintError) and issues no engine calls when the
range is enabled (`min ≤ max`) and the value lies outside it; with
`min > max` it succeeds for any value with only the registration and
no range assumptions; and on success with an enabled range it
registers the value under `encode(name, "value", Integer)` and then
issues `assume(v ≥ min)` followed by `assume(v ≤ max)`. -/
theorem makeConcolicInt_spec (value : Int) (base : List Char)
    (max_value min_value : Int) :
    (min_value ≤ max_value → (value < min_value ∨ value > max_value) →
      MakeConcolicInt true value base max_value min_value =
        ([], .error (.fail .valueError "Incompatible value constraints"))) ∧
      (min_value > max_value →
        MakeConcolicInt true value base max_value min_value =
          ([Event.mkConcolic
              (encodeName base KindTag.integer.code "value".toList)
              sizeofLong], .ok value)) ∧
      (min_value ≤ max_value → min_value ≤ value → value ≤ max_value →
        MakeConcolicInt true value base max_value min_value =
          ([Event.mkConcolic
              (encodeName base KindTag.integer.code "value".toList)
              sizeofLong,
            Event.assumeGe value min_value, Event.assumeLe value max_value],
            .ok value)) := by
  unfold MakeConcolicInt MakeConcolicBuffer
  refine ⟨fun h1 h2 => ?_, fun h1 => ?_, fun h1 h2 h3 => ?_⟩
  · rw [if_neg (by simp : ¬ (true = false)), if_pos ⟨h1, h2⟩]
  · rw [if_neg (by simp : ¬ (true = false)),
      if_neg (fun hc => absurd hc.1 (by omega)),
      if_neg (by omega : ¬ max_value ≥ min_value)]
    rfl
  · rw [if_neg (by simp : ¬ (true = false)),
      if_neg (fun hc => by rcases hc.2 with h | h <;> omega),
      if_pos (by omega : max_value ≥ min_value)]
    rfl

/-- Claim C5 (witness): value 5 in range `[1, 10]` registers and then
assumes `5 ≥ 1`, `5 ≤ 10`. -/
theorem makeConcolicInt_spec_witness :
    MakeConcolicInt true 5 ['x'] 10 1 =
      ([Event.mkConcolic
          (encodeName ['x'] KindTag.integer.code "value".toList) sizeofLong,
        Event.assumeGe 5 1, Event.assumeLe 5 10], .ok 5) :=
  (makeConcolicInt_spec 5 ['x'] 10 1).2.2 (by decide) (by decide) (by decide)

/-- Claim C2 (counterexample): marking the 5-byte string under
`"req.body"` with bounds `(min 1, max 10)` issues
`assume(size ≤ 10)` BEFORE `assume(size ≥ 1)` —
`ConstrainObjectSize` emits the upper bound first — so the event
trace differs from the order the claim states. -/
theorem string_constrain_order_cex :
    (MakeConcolicString 0 [104, 101, 108, 108, 111] "req.body".toList
        10 1 1 true true).1 =
      [Event.mkConcolic "req.body.s#value".toList 5,
        Event.mkConcolic "req.body.l#size".toList 8,
        Event.assumeLe 5 10, Event.assumeGe 5 1] ∧
    (MakeConcolicString 0 [104, 101, 108, 108, 111] "req.body".toList
        10 1 1 true true).1 ≠
      [Event.mkConcolic "req.body.s#value".toList 5,
        Event.mkConcolic "req.body.l#size".toList 8,
        Event.assumeGe 5 1, Event.assumeLe 5 10] := by
  exact ⟨rfl, by decide⟩

/-- Claim C2 (amended): marking any 5-byte text value under
`"req.body"` with bounds `(min 1, max 10)` validates `5 ∈ [1, 10]`,
registers the 5 content bytes under `"req.body.s#value"`, registers
the size field under `"req.body.l#size"`, then issues
`assume(size ≤ 10)` FOLLOWED BY `assume(size ≥ 1)` (the code emits
the upper bound first), and returns a new text value distinct from
the input. -/
theorem string_mark_end_to_end (bytes : List Nat) (tid fresh : Nat)
    (hlen : bytes.length = 5) (hneq : fresh ≠ tid) :
    MakeConcolicString tid bytes "req.body".toList 10 1 fresh true true =
      ([Event.mkConcolic "req.body.s#value".toList 5,
        Event.mkConcolic "req.body.l#size".toList 8,
        Event.assumeLe 5 10, Event.assumeGe 5 1],
        .ok ⟨fresh, .pyStr bytes⟩) ∧
      (Obj.mk fresh (.pyStr bytes)).id ≠ tid := by
  refine ⟨?_, hneq⟩
  unfold MakeConcolicString
  simp only [hlen]
  rfl

/-- Claim C2 (witness at the content bytes of `"hello"`). -/
theorem string_mark_end_to_end_witness :
    MakeConcolicString 0 [104, 101, 108, 108, 111] "req.body".toList
        10 1 1 true true =
      ([Event.mkConcolic "req.body.s#value".toList 5,
        Event.mkConcolic "req.body.l#size".toList 8,
        Event.assumeLe 5 10, Event.assumeGe 5 1],
        .ok ⟨1, .pyStr [104, 101, 108, 108, 111]⟩) ∧
      (Obj.mk 1 (.pyStr [104, 101, 108, 108, 111])).id ≠ 0 :=
  string_mark_end_to_end [104, 101, 108, 108, 111] 0 1 (by decide)
    (by decide)

/-- Claim C3 (counterexample): when construction of the result string
fails (`PyString_FromStringAndSize` returning NULL), marking
`"hello"` returns a failure AFTER the value buffer was already
registered with the engine — the trace is non-empty on a failing
path, contradicting the claim. -/
theorem mark_after_registration_failure_cex :
    MakeConcolicSequence true ⟨0, .pyStr [104, 101, 108, 108, 111]⟩
        "req.body".toList 10 1 1 true false 100 =
      ([Event.mkConcolic "req.body.s#value".toList 5],
        .error (.fail .memoryError "")) ∧
      ([Event.mkConcolic "req.body.s#value".toList 5] : List Event) ≠ [] := by
  exact ⟨rfl, by decide⟩

/-- Claim C3 (amended): once a marking sequence has issued an engine
registration, the only way it can still fail is construction failure
of the result object (MemoryError) — and on that path exactly the
single value-buffer registration has been issued, with no size
registration and no constraints. -/
theorem mark_no_midway_abort (s2eActive : Bool) (target : Obj)
    (base : List Char) (max_size min_size : Int) (fresh : Nat)
    (mallocOk newOk : Bool) (maxSym : Int) (evs : List Event) (e : PyErr)
    (h : MakeConcolicSequence s2eActive target base max_size min_size fresh
        mallocOk newOk maxSym = (evs, .error e))
    (hne : evs ≠ []) :
    e = .fail .memoryError "" ∧
      ∃ ident sz, evs = [Event.mkConcolic ident sz] := by
  obtain ⟨tid, val⟩ := target
  cases val <;>
    simp only [MakeConcolicSequence, MakeConcolicString, MakeConcolicUnicode,
      MakeConcolicList, MakeConcolicDict, MakeConcolicTuple,
      MakeConcolicBuffer] at h <;>
    split_ifs at h <;>
    simp_all [Prod.mk.injEq] <;>
    (obtain ⟨h1, h2⟩ := h; exact ⟨_, _, h1.symm⟩)

/-- Claim C3 (amended, witness): the failing-construction path at
`"hello"` carries the MemoryError and the single registration. -/
theorem mark_no_midway_abort_witness :
    (PyErr.fail .memoryError "" = PyErr.fail .memoryError "") ∧
      ∃ ident sz,
        [Event.mkConcolic "req.body.s#value".toList 5] =
          [Event.mkConcolic ident sz] :=
  mark_no_midway_abort true ⟨0, .pyStr [104, 101, 108, 108, 111]⟩
    "req.body".toList 10 1 1 true false 100
    [Event.mkConcolic "req.body.s#value".toList 5]
    (.fail .memoryError "") (by rfl) (by decide)

/-- Claim C7 (counterexample): marking `None` raises
`PyExc_ValueError` ("Cannot make symbolic None"), while a runtime
kind outside the dispatch set raises `PyExc_TypeError`
("Unsupported type") — the two error classes are NOT the same. -/
theorem sequence_none_error_class_cex :
    (MakeConcolicSequence true ⟨0, .pyNone⟩ ['x'] 10 0 1 true true 100).2 =
        .error (.fail .valueError "Cannot make symbolic None") ∧
      (MakeConcolicSequence true ⟨0, .pyOther⟩ ['x'] 10 0 1 true true
          100).2 =
        .error (.fail .typeError "Unsupported type") ∧
      PyExc.valueError ≠ PyExc.typeError :=
  ⟨rfl, rfl, by decide⟩

/-- Claim C7 (amended): with the engine active and `min_size ≥ 0`,
`MakeConcolicSequence` on a `None`-equivalent value fails with
ValueError (the class used for constraint violations), NOT with the
TypeError class used for other unsupported runtime kinds, and no
engine interaction occurs. -/
theorem sequence_none_value_error (target : Obj) (base : List Char)
    (max_size min_size : Int) (fresh : Nat) (mallocOk newOk : Bool)
    (maxSym : Int) (hval : target.val = .pyNone) (hmin : 0 ≤ min_size) :
    MakeConcolicSequence true target base max_size min_size fresh mallocOk
        newOk maxSym =
      ([], .error (.fail .valueError "Cannot make symbolic None")) := by
  unfold MakeConcolicSequence
  rw [if_neg (by simp : ¬ (true = false)),
    if_neg (by omega : ¬ min_size < 0), hval]

/-- Claim C7 (amended, witness). -/
theorem sequence_none_value_error_witness :
    MakeConcolicSequence true ⟨0, .pyNone⟩ ['x'] 10 0 1 true true 100 =
      ([], .error (.fail .valueError "Cannot make symbolic None")) :=
  sequence_none_value_error ⟨0, .pyNone⟩ ['x'] 10 0 1 true true 100 rfl
    (by decide)

/-- Claim C8: `MakeConcolicDict` and `MakeConcolicTuple` register the
element-count field under `encode(name, "size", PlatformSizeInteger)`
and unconditionally issue exactly `assume(count ≥ 0)` then
`assume(count < max_symbolic_size_)`, returning the same object
reference; dispatching a dict or tuple through
`MakeConcolicSequence` forwards NO caller-supplied bounds to them. -/
theorem dict_tuple_size_constraints (tid used len : Nat)
    (base : List Char) (maxSym max_size min_size : Int) (fresh : Nat)
    (mallocOk newOk : Bool) (hmin : 0 ≤ min_size) :
    MakeConcolicDict tid used base maxSym =
      ([Event.mkConcolic
          (encodeName base KindTag.platformSize.code "size".toList)
          sizeofSsize,
        Event.assumeGe (used : Int) 0, Event.assumeLt (used : Int) maxSym],
        .ok ⟨tid, .pyDict used⟩) ∧
      MakeConcolicTuple tid len base maxSym =
        ([Event.mkConcolic
            (encodeName base KindTag.platformSize.code "size".toList)
            sizeofSsize,
          Event.assumeGe (len : Int) 0, Event.assumeLt (len : Int) maxSym],
          .ok ⟨tid, .pyTuple len⟩) ∧
      MakeConcolicSequence true ⟨tid, .pyDict used⟩ base max_size min_size
          fresh mallocOk newOk maxSym =
        MakeConcolicDict tid used base maxSym ∧
      MakeConcolicSequence true ⟨tid, .pyTuple len⟩ base max_size min_size
          fresh mallocOk newOk maxSym =
        MakeConcolicTuple tid len base maxSym := by
  refine ⟨rfl, rfl, ?_, ?_⟩ <;>
    · unfold MakeConcolicSequence
      rw [if_neg (by simp : ¬ (true = false)),
        if_neg (by omega : ¬ min_size < 0)]

/-- Claim C8 (witness). -/
theorem dict_tuple_size_constraints_witness :
    MakeConcolicDict 0 3 ['x'] 100 =
      ([Event.mkConcolic
          (encodeName ['x'] KindTag.platformSize.code "size".toList)
          sizeofSsize,
        Event.assumeGe (3 : Int) 0, Event.assumeLt (3 : Int) 100],
        .ok ⟨0, .pyDict 3⟩) :=
  (dict_tuple_size_constraints 0 3 2 ['x'] 100 10 0 1 true true
    (by decide)).1

/-- Claim C9: `MakeConcolicList` preserves object identity (the
returned reference is the input reference), while `MakeConcolicString`
and `MakeConcolicUnicode`, whenever they succeed, return a freshly
constructed object whose identity differs from the input's.
(`fresh ≠ tid` is the allocator guarantee: a newly constructed
object's address differs from every live object's.) -/
theorem mark_identity_contract (tid len : Nat) (bytes units : List Nat)
    (base : List Char) (max_size min_size : Int) (fresh : Nat)
    (mallocOk newOk : Bool) (o1 o2 o3 : Obj) (hfresh : fresh ≠ tid) :
    ((MakeConcolicList tid len base max_size min_size).2 = .ok o1 →
        o1.id = tid) ∧
      ((MakeConcolicString tid bytes base max_size min_size fresh mallocOk
          newOk).2 = .ok o2 → o2.id ≠ tid) ∧
      ((MakeConcolicUnicode tid units base max_size min_size fresh mallocOk
          newOk).2 = .ok o3 → o3.id ≠ tid) := by
  refine ⟨fun h => ?_, fun h => ?_, fun h => ?_⟩
  · simp only [MakeConcolicList] at h
    split_ifs at h <;>
      first
        | exact Except.noConfusion h
        | (have h2 := Except.ok.inj h; rw [← h2])
  · simp only [MakeConcolicString] at h
    split_ifs at h <;>
      first
        | exact Except.noConfusion h
        | (have h2 := Except.ok.inj h; rw [← h2]; exact hfresh)
  · simp only [MakeConcolicUnicode] at h
    split_ifs at h <;>
      first
        | exact Except.noConfusion h
        | (have h2 := Except.ok.inj h; rw [← h2]; exact hfresh)

/-- Claim C9 (witness): a marked list keeps identity 0; a marked
string gets the fresh identity 1 ≠ 0. -/
theorem mark_identity_contract_witness :
    (Obj.mk 0 (.pyList 2)).id = 0 ∧ (Obj.mk 1 (.pyStr [104])).id ≠ 0 :=
  ⟨(mark_identity_contract 0 2 [104] [104] ['x'] 10 1 1 true true
      ⟨0, .pyList 2⟩ ⟨1, .pyStr [104]⟩ ⟨1, .pyUnicode [104]⟩
      (by decide)).1 (by rfl),
    (mark_identity_contract 0 2 [104] [104] ['x'] 10 1 1 true true
      ⟨0, .pyList 2⟩ ⟨1, .pyStr [104]⟩ ⟨1, .pyUnicode [104]⟩
      (by decide)).2.1 (by rfl)⟩

end ChefConcolic
